import Mathlib

/-!
Verification of the Aktuell event plane (Hub, Change-Stream Ingestor,
Snapshot Streamer, Subscription Validator) against its specification.

The definitions below are a shallow embedding of the Go sources:
  - `pkg/models/types.go`     — data model (ChangeEvent, ServerMessage, …)
  - `pkg/server/websocket.go` — Hub, Client, request handlers, snapshot session
  - `pkg/sync/database.go`    — Database.StreamSnapshot
  - `pkg/sync` manager file   — MultiDBManager.IsValidSubscription,
                                Manager.processChangeEvents

Documents, wire payloads and BSON maps are modelled as association lists of
strings; wall-clock timestamps, logging and the MongoDB driver are outside the
model.  The store behind a snapshot is modelled as the already-filtered,
already-sorted list of documents of the collection (filter and sort are passed
through verbatim to the store by the Go code), so `CountDocuments` is its
length and a `Find` with skip/limit is `drop`/`take`.
-/

namespace Aktuell

/-- A document / wire object: association list of field names to values. -/
abbrev Doc := List (String × String)

/-- `models.ChangeEvent` (pkg/models/types.go).  Only the fields the claims
depend on are carried; the payload maps (`documentKey`, `fullDocument`, …)
are irrelevant to routing, which reads only `database` and `collection`. -/
structure ChangeEvent where
  id : String
  operationType : String
  database : String
  collection : String
  documentKey : Doc := []
  fullDocument : Doc := []
  deriving Repr, DecidableEq

/-- `models.SnapshotOptions` (pkg/models/types.go).  `snapshot_filter` and
`snapshot_sort` are passed through to the store and are absorbed into the
modelled collection contents.  Integer fields are Go `int`s; JSON omission
gives the zero value, mirrored by the defaults. -/
structure SnapshotOptions where
  includeSnapshot : Bool := false
  snapshotLimit : Int := 0
  batchSize : Int := 0
  deriving Repr, DecidableEq

/-- `models.Subscription` (pkg/models/types.go); `createdAt` (wall clock) is
outside the model. -/
structure Subscription where
  id : String
  clientId : String
  database : String
  collection : String
  snapshotOptions : Option SnapshotOptions := none
  deriving Repr, DecidableEq

/-- `models.DatabaseConfig` (pkg/models/types.go). -/
structure DatabaseConfig where
  name : String
  collections : List String
  deriving Repr, DecidableEq

/-- `models.ClientMessage` (pkg/models/types.go). -/
structure ClientMessage where
  type : String := ""
  database : String := ""
  collection : String := ""
  requestId : String := ""
  subscriptionId : String := ""
  snapshotOptions : Option SnapshotOptions := none
  deriving Repr, DecidableEq

/-- `models.ServerMessage` (pkg/models/types.go).  The generic `Data` field is
modelled as an association list (it only ever carries `subscription_id`
resp. `status`/`timestamp`).  Zero values mirror Go's `omitempty` encoding. -/
structure ServerMessage where
  type : String
  change : Option ChangeEvent := none
  error : String := ""
  errorCode : Nat := 0
  requestId : String := ""
  success : Bool := false
  data : List (String × String) := []
  snapshotData : List Doc := []
  snapshotBatch : Nat := 0
  snapshotRemaining : Nat := 0
  deriving Repr, DecidableEq

/-- `MultiDBManager.IsValidSubscription` (sync manager file): the first
configured database whose `name` matches decides; an empty collection list
allows every collection of that database; an unknown database is rejected. -/
def IsValidSubscription (dbConfigs : List DatabaseConfig) (database collection : String) : Bool :=
  match dbConfigs.find? (fun cfg => cfg.name == database) with
  | some cfg => cfg.collections.isEmpty || cfg.collections.contains collection
  | none => false

/-- List front relation: `l₁` followed by some tail equals `l₂`
(the delivered sequence is an initial segment of the produced one). -/
def ListIsFront {α : Type} (l₁ l₂ : List α) : Prop := ∃ t, l₁ ++ t = l₂

/-- List containment relation: `l₁` occurs contiguously inside `l₂`. -/
def ListContains {α : Type} (l₁ l₂ : List α) : Prop := ∃ pre post, pre ++ l₁ ++ post = l₂

theorem listIsFront_nil {α : Type} (l : List α) : ListIsFront [] l := ⟨l, rfl⟩

theorem listIsFront_app {α : Type} (l t : List α) : ListIsFront l (l ++ t) := ⟨t, rfl⟩

theorem listIsFront_take {α : Type} (k : Nat) (l : List α) : ListIsFront (l.take k) l :=
  ⟨l.drop k, l.take_append_drop k⟩

theorem listIsFront_trans {α : Type} {l₁ l₂ l₃ : List α}
    (h₁ : ListIsFront l₁ l₂) (h₂ : ListIsFront l₂ l₃) : ListIsFront l₁ l₃ := by
  obtain ⟨t₁, rfl⟩ := h₁
  obtain ⟨t₂, rfl⟩ := h₂
  exact ⟨t₁ ++ t₂, (List.append_assoc _ _ _).symm⟩

/-! ## Snapshot streamer (`Database.StreamSnapshot`, pkg/sync/database.go:225-333)

One invocation of the Go `callback` is a `SnapCall`: either a page of
documents with its 1-based batch number and the remaining count passed as
`remaining - len(batch)`, or the terminal error invocation
`callback(nil, n, r, err)`. -/

inductive SnapCall where
  | ok (batch : List Doc) (batchNum remaining : Nat)
  | err (batchNum remaining : Nat) (msg : String)
  deriving Repr, DecidableEq

/-- The page argument of a callback invocation (`nil` for the error case). -/
def SnapCall.page : SnapCall → List Doc
  | .ok b _ _ => b
  | .err _ _ _ => []

/-- The batch-number argument of a callback invocation. -/
def SnapCall.num : SnapCall → Nat
  | .ok _ n _ => n
  | .err n _ _ => n

/-- The remaining-count argument of a callback invocation. -/
def SnapCall.rem : SnapCall → Nat
  | .ok _ _ r => r
  | .err _ r _ => r

/-- Effective batch size (database.go:232-235): `batchSize <= 0` defaults
to 100, so the effective value is always ≥ 1. -/
def effBatchSize (o : SnapshotOptions) : Nat :=
  if o.batchSize ≤ 0 then 100 else o.batchSize.toNat

/-- Effective limit (database.go:237-240): `limit <= 0` defaults to 10000,
so the effective value is always ≥ 1. -/
def effLimit (o : SnapshotOptions) : Nat :=
  if o.snapshotLimit ≤ 0 then 10000 else o.snapshotLimit.toNat

/-- The paging loop of `Database.StreamSnapshot` (database.go:276-326) over a
consistent store: the page read at `[skip, skip+currentBatchSize)` is
`(docs.drop skip).take currentBatchSize`.  The loop runs while
`remaining > 0`; each iteration emits one callback invocation carrying
`remaining - len(batch)` and breaks early when the page came back short.
`bsPred + 1` is the effective batch size (always ≥ 1 after defaulting, see
`effBatchSize`), hence every non-breaking iteration consumes at least one
document from `remaining`; `fuel` is initialised to `remaining` by
`StreamSnapshot`, which therefore never runs out before the loop exits. -/
def snapshotLoopF (docs : List Doc) (bsPred : Nat) : Nat → Nat → Nat → Nat → List SnapCall
  | 0, _, _, _ => []
  | _ + 1, _, _, 0 => []
  | fuel + 1, skip, batchNum, remaining + 1 =>
    let currentBatchSize := min (bsPred + 1) (remaining + 1)
    let batch := (docs.drop skip).take currentBatchSize
    let call := SnapCall.ok batch batchNum (remaining + 1 - batch.length)
    if batch.length < currentBatchSize then [call]
    else call :: snapshotLoopF docs bsPred fuel (skip + batch.length) (batchNum + 1)
                   (remaining + 1 - batch.length)

/-- `Database.StreamSnapshot` (database.go:225-333).  `docs` is the filtered,
sorted contents of the target collection; `countErr` injects a failure of the
initial `CountDocuments` call (the only store error the claims exercise; a
consistent in-model store never fails mid-page).  Missing options produce the
single error invocation of database.go:226-229; a count failure produces the
single error invocation of database.go:256-260; otherwise the loop starts at
`skip = 0`, `batchNum = 1`, `remaining = actualTotal = min count limit`. -/
def StreamSnapshot (docs : List Doc) (countErr : Option String)
    (snapOpts : Option SnapshotOptions) : List SnapCall :=
  match snapOpts with
  | none => [SnapCall.err 0 0 "snapshot options are required"]
  | some o =>
    match countErr with
    | some e => [SnapCall.err 0 0 ("failed to count documents: " ++ e)]
    | none =>
      let actualTotal := min docs.length (effLimit o)
      snapshotLoopF docs (effBatchSize o - 1) actualTotal 0 1 actualTotal

/-! ## Snapshot session on the client (`Client.handleSnapshot`,
pkg/server/websocket.go:528-625)

The handler enqueues onto the client's `send` channel with a non-blocking
`select`/`default`.  Whether each attempt finds buffer space depends on the
concurrently-draining writer loop; the environment is abstracted as an oracle
`ok : Nat → Bool` giving the outcome of the k-th enqueue attempt of the
session (attempt 0 is `snapshot_start`). -/

/-- The `snapshot_start` message (websocket.go:536-538). -/
def snapshotStartMsg : ServerMessage := { type := "snapshot_start" }

/-- The `snapshot_end` message (websocket.go:592-594). -/
def snapshotEndMsg : ServerMessage := { type := "snapshot_end" }

/-- A `snapshot` batch message (websocket.go:566-571). -/
def batchMsg (b : List Doc) (n r : Nat) : ServerMessage :=
  { type := "snapshot", snapshotData := b, snapshotBatch := n, snapshotRemaining := r }

/-- The snapshot error message (websocket.go:551-554).  Note: it carries no
`RequestID`. -/
def snapErrMsg (e : String) : ServerMessage :=
  { type := "error", error := "Snapshot error: " ++ e }

/-- One invocation of the callback of websocket.go:548-608, given the oracle
and the index `i` of the next enqueue attempt.  Returns the messages that
reached the queue and the next attempt index.  A failed batch enqueue makes
the callback return early (websocket.go:573-578), skipping the
`remaining == 0` check of that invocation. -/
def processCall (ok : Nat → Bool) (i : Nat) : SnapCall → List ServerMessage × Nat
  | .err _ _ e => ((if ok i then [snapErrMsg e] else []), i + 1)
  | .ok batch bn rem =>
    if batch.isEmpty then
      if rem = 0 then ((if ok i then [snapshotEndMsg] else []), i + 1)
      else ([], i)
    else
      if ok i then
        if rem = 0 then
          (batchMsg batch bn rem :: (if ok (i + 1) then [snapshotEndMsg] else []), i + 2)
        else ([batchMsg batch bn rem], i + 1)
      else ([], i + 1)

/-- The sequence of callback invocations of one snapshot session, in the order
`StreamSnapshot` produces them (the callback is invoked sequentially by the
single snapshot goroutine). -/
def processCalls (ok : Nat → Bool) : List SnapCall → Nat → List ServerMessage
  | [], _ => []
  | c :: rest, i =>
    (processCall ok i c).1 ++ processCalls ok rest (processCall ok i c).2

/-- `Client.handleSnapshot` (websocket.go:528-625): enqueue `snapshot_start`
(aborting the whole session if that enqueue fails, websocket.go:540-545),
then run `StreamSnapshot` with the callback.  The result is the sequence of
messages that reached the client's outbound queue, in order. -/
def handleSnapshotSession (docs : List Doc) (countErr : Option String)
    (snapOpts : Option SnapshotOptions) (ok : Nat → Bool) : List ServerMessage :=
  if ok 0 then
    snapshotStartMsg :: processCalls ok (StreamSnapshot docs countErr snapOpts) 1
  else []

/-! ## Request handlers (`Client.handleSubscribe` and friends,
pkg/server/websocket.go:438-703)

A client's subscription map is an association list `subscription id ↦
Subscription`.  Server-generated UUIDs are parameters (`freshId`).  Each
handler's reply is enqueued with the same non-blocking `select`/`default`;
the reply a handler produces is returned and, where a claim depends on queue
space, the outcome of that single enqueue is the Boolean parameter `okResp`. -/

/-- The rejection message of `Client.handleSubscribe`
(websocket.go:443-450): type `error`, code 1, echoing the `RequestID`.
`\x27` is the ASCII apostrophe of the Go format string. -/
def invalidSubMsg (msg : ClientMessage) : ServerMessage :=
  { type := "error", success := false,
    error := "Invalid subscription: database \x27" ++ msg.database ++
      "\x27 collection \x27" ++ msg.collection ++ "\x27 is not configured on the server",
    requestId := msg.requestId, errorCode := 1 }

/-- The success ack of `Client.handleSubscribe` (websocket.go:497-505). -/
def subscribeAckMsg (msg : ClientMessage) (freshId : String) : ServerMessage :=
  { type := "subscribe", success := true, requestId := msg.requestId,
    data := [("subscription_id", freshId)] }

/-- `Client.handleSubscribe` (websocket.go:438-525).  `validator` is
`none` when no validator was configured on the server (the Go code then skips
the whitelist check).  Returns the updated subscription map, the replies that
reached the queue (given `okResp`), and the subscription for which a snapshot
session is spawned, if any (websocket.go:521-524: only when snapshot options
are present with `IncludeSnapshot` set). -/
def handleSubscribe (validator : Option (List DatabaseConfig)) (clientId freshId : String)
    (subs : List (String × Subscription)) (msg : ClientMessage) (okResp : Bool) :
    List (String × Subscription) × List ServerMessage × Option Subscription :=
  let rejected : Bool :=
    match validator with
    | some cfgs => !(IsValidSubscription cfgs msg.database msg.collection)
    | none => false
  if rejected then
    (subs, (if okResp then [invalidSubMsg msg] else []), none)
  else
    let subscription : Subscription :=
      { id := freshId, clientId := clientId, database := msg.database,
        collection := msg.collection, snapshotOptions := msg.snapshotOptions }
    (subs ++ [(freshId, subscription)],
     (if okResp then [subscribeAckMsg msg freshId] else []),
     match msg.snapshotOptions with
     | some o => if o.includeSnapshot then some subscription else none
     | none => none)

/-- `Client.handleSubscribe` composed with the snapshot session it spawns
(websocket.go:521-524 + 610-624).  In the absence of other traffic the ack is
enqueued before `snapshot_start` (the start message is sent before the
streaming goroutine is spawned), so the queue receives the reply messages
followed by the session messages. -/
def handleSubscribeFull (validator : Option (List DatabaseConfig)) (clientId freshId : String)
    (subs : List (String × Subscription)) (msg : ClientMessage) (okResp : Bool)
    (docs : List Doc) (countErr : Option String) (snapOk : Nat → Bool) :
    List (String × Subscription) × List ServerMessage :=
  match handleSubscribe validator clientId freshId subs msg okResp with
  | (subs2, msgs, none) => (subs2, msgs)
  | (subs2, msgs, some sub) =>
    (subs2, msgs ++ handleSnapshotSession docs countErr sub.snapshotOptions snapOk)

/-- `Client.handleUnsubscribe` (websocket.go:627-670): with a
`subscriptionId`, remove exactly that subscription (`Subscription not found`
failure otherwise); with none, clear the whole map. -/
def handleUnsubscribe (subs : List (String × Subscription)) (msg : ClientMessage) :
    List (String × Subscription) × ServerMessage :=
  if msg.subscriptionId ≠ "" then
    if (subs.find? (fun p => p.1 == msg.subscriptionId)).isSome then
      (subs.filter (fun p => ¬ p.1 == msg.subscriptionId),
       { type := "unsubscribe", success := true, requestId := msg.requestId })
    else
      (subs, { type := "unsubscribe", success := false,
               error := "Subscription not found", requestId := msg.requestId })
  else
    ([], { type := "unsubscribe", success := true, requestId := msg.requestId })

/-- `Client.handlePing` (websocket.go:672-684). -/
def handlePing (msg : ClientMessage) : ServerMessage :=
  { type := "pong", requestId := msg.requestId }

/-- `Client.handleHealthWS` (websocket.go:686-703); `now` is the formatted
wall-clock timestamp. -/
def handleHealthWS (msg : ClientMessage) (now : String) : ServerMessage :=
  { type := "health", success := true, requestId := msg.requestId,
    data := [("status", "ok"), ("timestamp", now)] }

/-! ## The Hub (`Hub.run`, pkg/server/websocket.go:220-262)

One `Client` of the hub: its subscriptions, the bounded `send` channel
(`history` records every message ever enqueued, `qlen` the current buffer
occupancy, `capacity` the channel capacity — 1024 at websocket.go:301).

The hub reactor drains `register`/`unregister`/`broadcast` serially; the
clients' writer loops drain their `send` channels concurrently.  A system
trace interleaves the reactor's events with `drain` steps (the writer loop
receiving up to `n` messages).  The only producer into `hub.broadcast` is
`WebSocketServer.BroadcastChange` (websocket.go:205-212), called sequentially
by `Manager.processChangeEvents` for the events its ingestor's channel
yields, so `Step.broadcast` carries a `ChangeEvent` and the order of
`broadcast` steps for one database is the ingestor's delivery order. -/

structure HClient where
  id : String
  subs : List Subscription
  history : List ServerMessage := []
  qlen : Nat := 0
  capacity : Nat := 1024
  deriving Repr, DecidableEq

/-- `WebSocketServer.BroadcastChange` (websocket.go:205-212): every message
entering the broadcast channel wraps a change event. -/
def BroadcastChange (ev : ChangeEvent) : ServerMessage :=
  { type := "change", change := some ev }

/-- `Hub.isClientSubscribed` (websocket.go:264-287): a message without a
change event would go to every client; a change event is delivered iff some
subscription has the same database and either the empty collection (wildcard)
or the same collection. -/
def isClientSubscribed (c : HClient) (msg : ServerMessage) : Bool :=
  match msg.change with
  | none => true
  | some ch =>
    if c.subs.isEmpty then false
    else c.subs.any (fun sub =>
      sub.database == ch.database &&
        (sub.collection == "" || sub.collection == ch.collection))

/-- The broadcast-case body for one client (websocket.go:248-257): if the
client is subscribed, try the non-blocking send; on success the message joins
the queue, on a full buffer the hub closes `send` and deletes the client
(the returned Boolean is `false` exactly when the client is evicted). -/
def deliver (msg : ServerMessage) (c : HClient) : HClient × Bool :=
  if isClientSubscribed c msg then
    if c.qlen < c.capacity then
      ({ c with history := c.history ++ [msg], qlen := c.qlen + 1 }, true)
    else (c, false)
  else (c, true)

inductive Step where
  | register (c : HClient)
  | unregister (cid : String)
  | broadcast (ev : ChangeEvent)
  | drain (cid : String) (n : Nat)
  deriving Repr, DecidableEq

/-- Hub state: the `clients` set, plus the clients the hub has removed and
whose `send` channel it closed (`close(client.send)` at websocket.go:237 and
websocket.go:254) — kept so a removed client's delivered history stays
observable. -/
structure HubState where
  clients : List HClient
  departed : List HClient
  deriving Repr, DecidableEq

/-- One step of the system: the three `Hub.run` cases (websocket.go:220-262)
plus the writer-loop drain.  `register` inserts; `unregister` removes and
closes `send` if the client is present (idempotent otherwise); `broadcast`
runs `deliver` on every client, keeping the survivors and moving the evicted
to `departed`; `drain cid n` is the writer loop of `cid` receiving up to `n`
queued messages. -/
def sysStep (s : HubState) : Step → HubState
  | .register c => { s with clients := s.clients ++ [c] }
  | .unregister cid =>
    if s.clients.any (fun c => c.id == cid) then
      { clients := s.clients.filter (fun c => ¬ c.id == cid),
        departed := s.departed ++ s.clients.filter (fun c => c.id == cid) }
    else s
  | .broadcast ev =>
    let msg := BroadcastChange ev
    { clients := s.clients.filterMap (fun c =>
        if (deliver msg c).2 then some (deliver msg c).1 else none),
      departed := s.departed ++ s.clients.filterMap (fun c =>
        if (deliver msg c).2 then none else some (deliver msg c).1) }
  | .drain cid n =>
    { s with clients := s.clients.map (fun c =>
        if c.id == cid then { c with qlen := c.qlen - n } else c) }

def runTrace (s : HubState) (tr : List Step) : HubState := tr.foldl sysStep s

/-- Every message ever enqueued to the `send` channel of the client `cid`
(whether it is still registered or was removed). -/
def historyOf (s : HubState) (cid : String) : List ServerMessage :=
  (((s.clients ++ s.departed).find? (fun c => c.id == cid)).map (fun c => c.history)).getD []

/-- The change events the ingestor delivered into the broadcast channel for
one `(database, collection)` pair, in delivery order. -/
def producedFor (db coll : String) (tr : List Step) : List ChangeEvent :=
  tr.filterMap (fun st =>
    match st with
    | .broadcast ev =>
      if ev.database == db && ev.collection == coll then some ev else none
    | _ => none)

/-- The `change` messages for one `(database, collection)` pair among a
delivered message sequence. -/
def changeMsgsFor (db coll : String) (ms : List ServerMessage) : List ServerMessage :=
  ms.filter (fun m =>
    match m.change with
    | some ch => m.type == "change" && ch.database == db && ch.collection == coll
    | none => false)

/-- Whether a subscription list matches every change event of the pair
`(db, coll)` (matching depends only on the event's database and collection,
see `isClientSubscribed`). -/
def matchesPair (subs : List Subscription) (db coll : String) : Bool :=
  subs.any (fun sub => sub.database == db && (sub.collection == "" || sub.collection == coll))

/-- The tracked client `cid` is registered with record `c`, exactly once. -/
def Active (cid : String) (s : HubState) (c : HClient) : Prop :=
  s.clients.filter (fun x => x.id == cid) = [c] ∧
  s.departed.filter (fun x => x.id == cid) = []

/-- The tracked client `cid` was removed by the hub with final record `c`
(its `send` channel is closed). -/
def Gone (cid : String) (s : HubState) (c : HClient) : Prop :=
  s.clients.filter (fun x => x.id == cid) = [] ∧
  s.departed.filter (fun x => x.id == cid) = [c]

/-! ### List bookkeeping lemmas -/

section ListHelpers

variable {α : Type} {p q : α → Bool}

theorem filter_sub_of_imp {l : List α} (h : ∀ a, p a = true → q a = true) :
    (l.filter q).filter p = l.filter p := by
  induction l with
  | nil => rfl
  | cons a as ih =>
    by_cases hp : p a = true
    · simp [List.filter_cons, h a hp, hp, ih]
    · by_cases hq : q a = true <;>
        simp [List.filter_cons, hq, hp, ih]

theorem filter_disjoint_of_imp {l : List α} (h : ∀ a, p a = true → q a = false) :
    (l.filter q).filter p = [] := by
  induction l with
  | nil => rfl
  | cons a as ih =>
    by_cases hq : q a = true
    · have hp : p a = false := by
        cases hpa : p a
        · rfl
        · rw [h a hpa] at hq; exact absurd hq (by simp)
      simp [List.filter_cons, hq, hp, ih]
    · simp [List.filter_cons, hq, ih]

theorem filter_nil_of_nil {l : List α} (h : l.filter p = []) :
    (l.filter q).filter p = [] := by
  rw [List.filter_eq_nil_iff] at h ⊢
  intro a ha
  exact h a (List.mem_of_mem_filter ha)

theorem filter_filterMap_comm {f : α → Option α} {l : List α}
    (hf : ∀ a b, f a = some b → p b = p a) :
    (l.filterMap f).filter p = (l.filter p).filterMap f := by
  induction l with
  | nil => rfl
  | cons a as ih =>
    cases hfa : f a with
    | none =>
      by_cases hp : p a = true <;>
        simp [List.filterMap_cons, List.filter_cons, hfa, hp, ih]
    | some b =>
      have hpb := hf a b hfa
      by_cases hp : p a = true
      · simp [List.filterMap_cons, List.filter_cons, hfa, hp, hpb, ih]
      · simp only [Bool.not_eq_true] at hp
        simp [List.filterMap_cons, List.filter_cons, hfa, hp, hpb, ih]

theorem filter_mapfn_comm {g : α → α} {l : List α} (hg : ∀ a, p (g a) = p a) :
    (l.map g).filter p = (l.filter p).map g := by
  induction l with
  | nil => rfl
  | cons a as ih =>
    by_cases hp : p a = true
    · simp [List.filter_cons, hg, hp, ih]
    · simp only [Bool.not_eq_true] at hp
      simp [List.filter_cons, hg, hp, ih]

theorem find?_of_filter_singleton {l : List α} {c : α} (h : l.filter p = [c]) :
    l.find? p = some c := by
  induction l with
  | nil => simp at h
  | cons a as ih =>
    by_cases hp : p a = true
    · rw [List.filter_cons_of_pos hp] at h
      obtain ⟨rfl, -⟩ := List.cons_eq_cons.mp h
      simp [List.find?_cons, hp]
    · simp only [Bool.not_eq_true] at hp
      rw [List.filter_cons_of_neg (by simp [hp])] at h
      simp [List.find?_cons, hp, ih h]

theorem find?_of_filter_nil {l : List α} (h : l.filter p = []) :
    l.find? p = none := by
  rw [List.filter_eq_nil_iff] at h
  rw [List.find?_eq_none]
  exact h

theorem find?_append_some {l₁ l₂ : List α} {c : α} (h : l₁.find? p = some c) :
    (l₁ ++ l₂).find? p = some c := by
  induction l₁ with
  | nil => simp at h
  | cons a as ih =>
    by_cases hp : p a = true
    · rw [List.find?_cons_of_pos _ hp] at h
      rw [List.cons_append, List.find?_cons_of_pos _ hp]
      exact h
    · simp only [Bool.not_eq_true] at hp
      rw [List.find?_cons_of_neg _ (by simp [hp])] at h
      rw [List.cons_append, List.find?_cons_of_neg _ (by simp [hp])]
      exact ih h

theorem find?_append_none {l₁ l₂ : List α} (h : l₁.find? p = none) :
    (l₁ ++ l₂).find? p = l₂.find? p := by
  induction l₁ with
  | nil => rfl
  | cons a as ih =>
    rw [List.find?_eq_none] at h
    have hp : p a = false := by
      cases hpa : p a
      · rfl
      · exact absurd hpa (h a (by simp))
    have has : as.find? p = none := by
      rw [List.find?_eq_none]; intro x hx; exact h x (by simp [hx])
    simpa [List.find?_cons_of_neg, hp] using ih has

theorem mem_of_filter_singleton {l : List α} {c : α} (h : l.filter p = [c]) :
    c ∈ l ∧ p c = true := by
  have : c ∈ l.filter p := by rw [h]; exact List.mem_singleton_self c
  exact ⟨List.mem_of_mem_filter this, List.of_mem_filter this⟩

end ListHelpers

/-! ### Basic facts about `deliver` and the hub transitions -/

theorem deliver_not_subscribed {m : ServerMessage} {c : HClient}
    (h : isClientSubscribed c m = false) : deliver m c = (c, true) := by
  unfold deliver
  rw [h]
  simp

theorem deliver_enqueue {m : ServerMessage} {c : HClient}
    (h : isClientSubscribed c m = true) (hq : c.qlen < c.capacity) :
    deliver m c = ({ c with history := c.history ++ [m], qlen := c.qlen + 1 }, true) := by
  unfold deliver
  rw [h]
  simp [hq]

theorem deliver_overflow {m : ServerMessage} {c : HClient}
    (h : isClientSubscribed c m = true) (hq : ¬ c.qlen < c.capacity) :
    deliver m c = (c, false) := by
  unfold deliver
  rw [h]
  simp [hq]

theorem deliver_id (m : ServerMessage) (c : HClient) : (deliver m c).1.id = c.id := by
  by_cases hs : isClientSubscribed c m = true
  · by_cases hq : c.qlen < c.capacity
    · rw [deliver_enqueue hs hq]
    · rw [deliver_overflow hs hq]
  · rw [deliver_not_subscribed (by simpa using hs)]

theorem deliver_subs (m : ServerMessage) (c : HClient) : (deliver m c).1.subs = c.subs := by
  by_cases hs : isClientSubscribed c m = true
  · by_cases hq : c.qlen < c.capacity
    · rw [deliver_enqueue hs hq]
    · rw [deliver_overflow hs hq]
  · rw [deliver_not_subscribed (by simpa using hs)]

theorem deliver_of_evicted {m : ServerMessage} {c : HClient}
    (h : (deliver m c).2 = false) : (deliver m c).1 = c := by
  by_cases hs : isClientSubscribed c m = true
  · by_cases hq : c.qlen < c.capacity
    · rw [deliver_enqueue hs hq] at h
      simp at h
    · rw [deliver_overflow hs hq]
  · rw [deliver_not_subscribed (by simpa using hs)]

/-- `isClientSubscribed` on a broadcast change message for the pair
`(db, coll)` is exactly `matchesPair` for that pair. -/
theorem isClientSubscribed_broadcast (c : HClient) {ev : ChangeEvent} {db coll : String}
    (hdb : ev.database = db) (hcoll : ev.collection = coll) :
    isClientSubscribed c (BroadcastChange ev) = matchesPair c.subs db coll := by
  unfold isClientSubscribed BroadcastChange matchesPair
  simp only [hdb, hcoll]
  by_cases h : c.subs.isEmpty
  · simp [h, List.isEmpty_iff.mp h]
  · simp [h]

/-! ### Per-step evolution of the tracked client -/

section Tracked

variable {cid : String} {s : HubState} {c : HClient}

theorem step_register (h : Active cid s c) {c' : HClient} (hne : c'.id ≠ cid) :
    Active cid (sysStep s (.register c')) c := by
  obtain ⟨h1, h2⟩ := h
  refine ⟨?_, h2⟩
  show (s.clients ++ [c']).filter _ = [c]
  rw [List.filter_append, h1]
  have hc : (c'.id == cid) = false := by simp [hne]
  simp [List.filter_cons, hc]

theorem step_unregister_other (h : Active cid s c) {cid' : String} (hne : cid' ≠ cid) :
    Active cid (sysStep s (.unregister cid')) c := by
  obtain ⟨h1, h2⟩ := h
  simp only [sysStep]
  split
  · constructor
    · show ((s.clients.filter _).filter _) = [c]
      rw [filter_sub_of_imp, h1]
      intro a ha
      have ha2 : a.id = cid := by simpa using ha
      simp [ha2, Ne.symm hne]
    · show ((s.departed ++ s.clients.filter _).filter _) = []
      rw [List.filter_append, h2, List.nil_append]
      rw [filter_disjoint_of_imp]
      intro a ha
      have ha2 : a.id = cid := by simpa using ha
      simp [ha2, Ne.symm hne]
  · exact ⟨h1, h2⟩

theorem step_unregister_self (h : Active cid s c) :
    Gone cid (sysStep s (.unregister cid)) c := by
  obtain ⟨h1, h2⟩ := h
  obtain ⟨hmem, hpc⟩ := mem_of_filter_singleton h1
  simp only [sysStep]
  rw [if_pos (List.any_eq_true.mpr ⟨c, hmem, hpc⟩)]
  constructor
  · show ((s.clients.filter _).filter _) = []
    rw [filter_disjoint_of_imp]
    intro a ha
    simp [ha]
  · show ((s.departed ++ s.clients.filter _).filter _) = [c]
    rw [List.filter_append, h2, List.nil_append]
    rw [filter_sub_of_imp (fun a ha => ha), h1]

theorem drainFn_keeps_id (cid cid' : String) (n : Nat) (a : HClient) :
    ((if a.id == cid' then { a with qlen := a.qlen - n } else a).id == cid) = (a.id == cid) := by
  by_cases hb : (a.id == cid') = true
  · simp [hb]
  · simp only [Bool.not_eq_true] at hb
    simp [hb]

theorem step_drain_self (h : Active cid s c) (n : Nat) :
    Active cid (sysStep s (.drain cid n)) { c with qlen := c.qlen - n } := by
  obtain ⟨h1, h2⟩ := h
  obtain ⟨-, hpc⟩ := mem_of_filter_singleton h1
  refine ⟨?_, h2⟩
  show ((s.clients.map _).filter _) = _
  rw [filter_mapfn_comm (fun a => drainFn_keeps_id cid cid n a), h1]
  simp only [List.map_cons, List.map_nil]
  rw [if_pos hpc]

theorem step_drain_other (h : Active cid s c) {cid' : String} (hne : cid' ≠ cid) (n : Nat) :
    Active cid (sysStep s (.drain cid' n)) c := by
  obtain ⟨h1, h2⟩ := h
  obtain ⟨-, hpc⟩ := mem_of_filter_singleton h1
  refine ⟨?_, h2⟩
  show ((s.clients.map _).filter _) = _
  rw [filter_mapfn_comm (fun a => drainFn_keeps_id cid cid' n a), h1]
  have hc : (c.id == cid') = false := by
    have hc2 : c.id = cid := by simpa using hpc
    simp [hc2, Ne.symm hne]
  simp only [List.map_cons, List.map_nil]
  rw [if_neg (by simp [hc])]

theorem keepFn_id {msg : ServerMessage} {a b : HClient}
    (hab : (if (deliver msg a).2 = true then some (deliver msg a).1 else none) = some b) :
    b.id = a.id := by
  split at hab
  · obtain rfl := Option.some_injective _ hab
    simp [deliver_id]
  · exact absurd hab (by simp)

theorem evictFn_id {msg : ServerMessage} {a b : HClient}
    (hab : (if (deliver msg a).2 = true then none else some (deliver msg a).1) = some b) :
    b.id = a.id := by
  split at hab
  · exact absurd hab (by simp)
  · obtain rfl := Option.some_injective _ hab
    simp [deliver_id]

theorem step_broadcast_keep (h : Active cid s c) {ev : ChangeEvent}
    (hk : (deliver (BroadcastChange ev) c).2 = true) :
    Active cid (sysStep s (.broadcast ev)) (deliver (BroadcastChange ev) c).1 := by
  obtain ⟨h1, h2⟩ := h
  constructor
  · show ((s.clients.filterMap _).filter _) = _
    rw [filter_filterMap_comm (fun a b hab => by rw [keepFn_id hab]), h1]
    simp [List.filterMap_cons, hk]
  · show ((s.departed ++ s.clients.filterMap _).filter _) = []
    rw [List.filter_append, h2, List.nil_append]
    rw [filter_filterMap_comm (fun a b hab => by rw [evictFn_id hab]), h1]
    simp [List.filterMap_cons, hk]

theorem step_broadcast_evict (h : Active cid s c) {ev : ChangeEvent}
    (hk : (deliver (BroadcastChange ev) c).2 = false) :
    Gone cid (sysStep s (.broadcast ev)) c := by
  obtain ⟨h1, h2⟩ := h
  constructor
  · show ((s.clients.filterMap _).filter _) = []
    rw [filter_filterMap_comm (fun a b hab => by rw [keepFn_id hab]), h1]
    simp [List.filterMap_cons, hk]
  · show ((s.departed ++ s.clients.filterMap _).filter _) = [c]
    rw [List.filter_append, h2, List.nil_append]
    rw [filter_filterMap_comm (fun a b hab => by rw [evictFn_id hab]), h1]
    simp [List.filterMap_cons, hk, deliver_of_evicted hk]

theorem gone_step (h : Gone cid s c) (st : Step)
    (hfr : ∀ c', st = .register c' → c'.id ≠ cid) :
    Gone cid (sysStep s st) c := by
  obtain ⟨h1, h2⟩ := h
  cases st with
  | register c' =>
    refine ⟨?_, h2⟩
    show (s.clients ++ [c']).filter _ = []
    have hc : (c'.id == cid) = false := by simp [hfr c' rfl]
    simp [List.filter_append, h1, List.filter_cons, hc]
  | unregister cid' =>
    simp only [sysStep]
    split
    · exact ⟨filter_nil_of_nil h1, by
        show ((s.departed ++ s.clients.filter _).filter _) = [c]
        rw [List.filter_append, h2, filter_nil_of_nil h1, List.append_nil]⟩
    · exact ⟨h1, h2⟩
  | broadcast ev =>
    constructor
    · show ((s.clients.filterMap _).filter _) = []
      rw [filter_filterMap_comm (fun a b hab => by rw [keepFn_id hab]), h1]
      rfl
    · show ((s.departed ++ s.clients.filterMap _).filter _) = [c]
      rw [List.filter_append, h2]
      rw [filter_filterMap_comm (fun a b hab => by rw [evictFn_id hab]), h1]
      rfl
  | drain cid' n =>
    refine ⟨?_, h2⟩
    show ((s.clients.map _).filter _) = []
    rw [filter_mapfn_comm (fun a => drainFn_keeps_id cid cid' n a), h1]
    rfl

theorem active_history (h : Active cid s c) : historyOf s cid = c.history := by
  obtain ⟨h1, -⟩ := h
  unfold historyOf
  rw [find?_append_some (find?_of_filter_singleton h1)]
  rfl

theorem gone_history (h : Gone cid s c) : historyOf s cid = c.history := by
  obtain ⟨h1, h2⟩ := h
  unfold historyOf
  rw [find?_append_none (find?_of_filter_nil h1),
    find?_of_filter_singleton h2]
  rfl

end Tracked

/-- No step of the trace registers a client with the id `cid` (ids are fresh
UUIDs, websocket.go:298). -/
def freshFor (cid : String) (tr : List Step) : Prop :=
  ∀ c', Step.register c' ∈ tr → c'.id ≠ cid

theorem freshFor_tail {cid : String} {st : Step} {tr : List Step}
    (h : freshFor cid (st :: tr)) : freshFor cid tr :=
  fun c' hm => h c' (List.mem_cons_of_mem st hm)

theorem freshFor_head {cid : String} {c' : HClient} {tr : List Step}
    (h : freshFor cid (.register c' :: tr)) : c'.id ≠ cid :=
  h c' (List.mem_cons_self _ _)

theorem runTrace_cons (s : HubState) (st : Step) (tr : List Step) :
    runTrace s (st :: tr) = runTrace (sysStep s st) tr := rfl

theorem gone_run {cid : String} {c : HClient} :
    ∀ (tr : List Step) (s : HubState), Gone cid s c → freshFor cid tr →
      Gone cid (runTrace s tr) c := by
  intro tr
  induction tr with
  | nil => exact fun s h _ => h
  | cons st rest ih =>
    intro s h hfr
    rw [runTrace_cons]
    refine ih _ (gone_step h st ?_) (freshFor_tail hfr)
    intro c' he
    subst he
    exact freshFor_head hfr

theorem changeMsg_keep {db coll : String} {ev : ChangeEvent}
    (h : (ev.database == db && ev.collection == coll) = true) :
    changeMsgsFor db coll [BroadcastChange ev] = [BroadcastChange ev] := by
  rw [Bool.and_eq_true] at h
  simp [changeMsgsFor, BroadcastChange, List.filter_cons, h.1, h.2]

theorem changeMsg_skip {db coll : String} {ev : ChangeEvent}
    (h : (ev.database == db && ev.collection == coll) = false) :
    changeMsgsFor db coll [BroadcastChange ev] = [] := by
  simp only [changeMsgsFor, BroadcastChange, List.filter_cons]
  simp only [List.filter_nil]
  rw [show (({ type := "change", change := some ev } : ServerMessage).type == "change" &&
      ev.database == db && ev.collection == coll) = false by
    simpa [Bool.and_assoc] using h]
  simp

theorem producedFor_cons_broadcast (db coll : String) (ev : ChangeEvent) (tr : List Step) :
    producedFor db coll (.broadcast ev :: tr) =
      (if ev.database == db && ev.collection == coll then [ev] else []) ++
        producedFor db coll tr := by
  by_cases hc : (ev.database == db && ev.collection == coll) = true
  · rw [Bool.and_eq_true] at hc
    have h1 : ev.database = db := by simpa using hc.1
    have h2 : ev.collection = coll := by simpa using hc.2
    simp [producedFor, List.filterMap_cons, h1, h2]
  · have hc2 : ¬(ev.database = db ∧ ev.collection = coll) := by
      intro hand
      exact hc (by simp [hand.1, hand.2])
    simp [producedFor, List.filterMap_cons, hc2]

theorem producedFor_cons_register (db coll : String) (c' : HClient) (tr : List Step) :
    producedFor db coll (.register c' :: tr) = producedFor db coll tr := by
  simp [producedFor, List.filterMap_cons]

theorem producedFor_cons_unregister (db coll : String) (cid' : String) (tr : List Step) :
    producedFor db coll (.unregister cid' :: tr) = producedFor db coll tr := by
  simp [producedFor, List.filterMap_cons]

theorem producedFor_cons_drain (db coll : String) (cid' : String) (n : Nat) (tr : List Step) :
    producedFor db coll (.drain cid' n :: tr) = producedFor db coll tr := by
  simp [producedFor, List.filterMap_cons]

/-- If the tracked client's subscriptions do not match the pair `(db, coll)`,
no `(db, coll)` change message is ever added to its history. -/
theorem run_no_match {cid db coll : String} :
    ∀ (tr : List Step) (s : HubState) (c : HClient),
      Active cid s c → freshFor cid tr → matchesPair c.subs db coll = false →
      changeMsgsFor db coll (historyOf (runTrace s tr) cid) =
        changeMsgsFor db coll c.history := by
  intro tr
  induction tr with
  | nil => exact fun s c hA _ _ => by rw [runTrace, List.foldl_nil, active_history hA]
  | cons st rest ih =>
    intro s c hA hfr hm
    rw [runTrace_cons]
    cases st with
    | register c' =>
      exact ih _ c (step_register hA (freshFor_head hfr)) (freshFor_tail hfr) hm
    | unregister cid' =>
      by_cases he : cid' = cid
      · subst he
        rw [gone_history (gone_run rest _ (step_unregister_self hA) (freshFor_tail hfr))]
      · exact ih _ c (step_unregister_other hA he) (freshFor_tail hfr) hm
    | drain cid' n =>
      by_cases he : cid' = cid
      · subst he
        exact ih _ { c with qlen := c.qlen - n } (step_drain_self hA n)
          (freshFor_tail hfr) hm
      · exact ih _ c (step_drain_other hA he n) (freshFor_tail hfr) hm
    | broadcast ev =>
      by_cases hsub : isClientSubscribed c (BroadcastChange ev) = true
      · by_cases hq : c.qlen < c.capacity
        · have hk : (deliver (BroadcastChange ev) c).2 = true := by
            rw [deliver_enqueue hsub hq]
          have hA2 := step_broadcast_keep hA hk
          rw [deliver_enqueue hsub hq] at hA2
          have hrec := ih _ _ hA2 (freshFor_tail hfr) (by simpa using hm)
          rw [hrec]
          have hevF : (ev.database == db && ev.collection == coll) = false := by
            cases hev : (ev.database == db && ev.collection == coll)
            · rfl
            · rw [Bool.and_eq_true] at hev
              have hdb : ev.database = db := by simpa using hev.1
              have hcoll : ev.collection = coll := by simpa using hev.2
              rw [isClientSubscribed_broadcast c hdb hcoll, hm] at hsub
              exact absurd hsub (by simp)
          show changeMsgsFor db coll (c.history ++ [BroadcastChange ev]) = _
          rw [changeMsgsFor, List.filter_append, ← changeMsgsFor, ← changeMsgsFor,
            changeMsg_skip hevF, List.append_nil]
        · have hk : (deliver (BroadcastChange ev) c).2 = false := by
            rw [deliver_overflow hsub hq]
          rw [gone_history (gone_run rest _ (step_broadcast_evict hA hk) (freshFor_tail hfr))]
      · have hd := deliver_not_subscribed (by simpa using hsub)
        have hk : (deliver (BroadcastChange ev) c).2 = true := by rw [hd]
        have hA2 := step_broadcast_keep hA hk
        rw [hd] at hA2
        exact ih _ c hA2 (freshFor_tail hfr) hm

theorem changeMsgsFor_append (db coll : String) (l₁ l₂ : List ServerMessage) :
    changeMsgsFor db coll (l₁ ++ l₂) =
      changeMsgsFor db coll l₁ ++ changeMsgsFor db coll l₂ := by
  unfold changeMsgsFor
  exact List.filter_append _ _

/-- Over any trace, the `(db, coll)` change messages added to the tracked
client's history form an initial segment of the `(db, coll)` events broadcast
during that trace, in broadcast order. -/
theorem run_front {cid db coll : String} :
    ∀ (tr : List Step) (s : HubState) (c : HClient),
      Active cid s c → freshFor cid tr →
      ∃ k, changeMsgsFor db coll (historyOf (runTrace s tr) cid) =
        changeMsgsFor db coll c.history ++
          (((producedFor db coll tr).map BroadcastChange).take k) := by
  intro tr
  induction tr with
  | nil =>
    intro s c hA _
    refine ⟨0, ?_⟩
    rw [runTrace, List.foldl_nil, active_history hA]
    simp
  | cons st rest ih =>
    intro s c hA hfr
    rw [runTrace_cons]
    cases st with
    | register c' =>
      obtain ⟨k, hk⟩ := ih _ c (step_register hA (freshFor_head hfr)) (freshFor_tail hfr)
      exact ⟨k, by rw [hk, producedFor_cons_register]⟩
    | unregister cid' =>
      by_cases he : cid' = cid
      · subst he
        refine ⟨0, ?_⟩
        rw [gone_history (gone_run rest _ (step_unregister_self hA) (freshFor_tail hfr))]
        simp
      · obtain ⟨k, hk⟩ := ih _ c (step_unregister_other hA he) (freshFor_tail hfr)
        exact ⟨k, by rw [hk, producedFor_cons_unregister]⟩
    | drain cid' n =>
      by_cases he : cid' = cid
      · subst he
        obtain ⟨k, hk⟩ :=
          ih _ { c with qlen := c.qlen - n } (step_drain_self hA n) (freshFor_tail hfr)
        exact ⟨k, by rw [hk, producedFor_cons_drain]⟩
      · obtain ⟨k, hk⟩ := ih _ c (step_drain_other hA he n) (freshFor_tail hfr)
        exact ⟨k, by rw [hk, producedFor_cons_drain]⟩
    | broadcast ev =>
      by_cases hev : (ev.database == db && ev.collection == coll) = true
      · have hdb : ev.database = db := by
          have := (Bool.and_eq_true _ _).mp hev
          simpa using this.1
        have hcoll : ev.collection = coll := by
          have := (Bool.and_eq_true _ _).mp hev
          simpa using this.2
        by_cases hsub : matchesPair c.subs db coll = true
        · have hsubc : isClientSubscribed c (BroadcastChange ev) = true := by
            rw [isClientSubscribed_broadcast c hdb hcoll]
            exact hsub
          by_cases hq : c.qlen < c.capacity
          · have hk : (deliver (BroadcastChange ev) c).2 = true := by
              rw [deliver_enqueue hsubc hq]
            have hA2 := step_broadcast_keep hA hk
            rw [deliver_enqueue hsubc hq] at hA2
            obtain ⟨k, hkk⟩ := ih _ _ hA2 (freshFor_tail hfr)
            refine ⟨k + 1, ?_⟩
            rw [hkk]
            dsimp only
            rw [changeMsgsFor_append, changeMsg_keep hev,
              producedFor_cons_broadcast, if_pos hev]
            simp [List.take_succ_cons, List.append_assoc]
          · have hk : (deliver (BroadcastChange ev) c).2 = false := by
              rw [deliver_overflow hsubc hq]
            refine ⟨0, ?_⟩
            rw [gone_history (gone_run rest _ (step_broadcast_evict hA hk) (freshFor_tail hfr))]
            simp
        · have hsubc : isClientSubscribed c (BroadcastChange ev) = false := by
            rw [isClientSubscribed_broadcast c hdb hcoll]
            simpa using hsub
          have hd := deliver_not_subscribed hsubc
          have hkT : (deliver (BroadcastChange ev) c).2 = true := by rw [hd]
          have hA2 := step_broadcast_keep hA hkT
          rw [hd] at hA2
          refine ⟨0, ?_⟩
          rw [run_no_match rest _ c hA2 (freshFor_tail hfr) (by simpa using hsub)]
          simp
      · have hevF : (ev.database == db && ev.collection == coll) = false := by
          simpa using hev
        by_cases hsub : isClientSubscribed c (BroadcastChange ev) = true
        · by_cases hq : c.qlen < c.capacity
          · have hk : (deliver (BroadcastChange ev) c).2 = true := by
              rw [deliver_enqueue hsub hq]
            have hA2 := step_broadcast_keep hA hk
            rw [deliver_enqueue hsub hq] at hA2
            obtain ⟨k, hkk⟩ := ih _ _ hA2 (freshFor_tail hfr)
            refine ⟨k, ?_⟩
            rw [hkk]
            dsimp only
            rw [changeMsgsFor_append, changeMsg_skip hevF,
              producedFor_cons_broadcast, if_neg (by simp [hevF])]
            simp
          · have hk : (deliver (BroadcastChange ev) c).2 = false := by
              rw [deliver_overflow hsub hq]
            refine ⟨0, ?_⟩
            rw [gone_history (gone_run rest _ (step_broadcast_evict hA hk) (freshFor_tail hfr))]
            simp
        · have hd := deliver_not_subscribed (by simpa using hsub)
          have hkT : (deliver (BroadcastChange ev) c).2 = true := by rw [hd]
          have hA2 := step_broadcast_keep hA hkT
          rw [hd] at hA2
          obtain ⟨k, hkk⟩ := ih _ c hA2 (freshFor_tail hfr)
          refine ⟨k, ?_⟩
          rw [hkk, producedFor_cons_broadcast, if_neg (by simp [hevF])]
          simp

/-! ### Structure of the snapshot paging loop -/

/-- Total number of documents carried by a list of callback invocations. -/
def sumPages (cs : List SnapCall) : Nat := (cs.map (fun c => c.page.length)).sum

theorem sumPages_cons (c : SnapCall) (cs : List SnapCall) :
    sumPages (c :: cs) = c.page.length + sumPages cs := by
  simp [sumPages]

theorem snapshotLoopF_zero (docs : List Doc) (bsPred fuel skip bn : Nat) :
    snapshotLoopF docs bsPred fuel skip bn 0 = [] := by
  cases fuel <;> rfl

/-- While at least `remaining` documents lie beyond `skip`, a page read is
never short, so the loop never takes its break branch: one iteration emits
the full page and recurses. -/
theorem snapshotLoopF_succ (docs : List Doc) (bsPred f skip bn r : Nat)
    (hlen : skip + (r + 1) ≤ docs.length) :
    snapshotLoopF docs bsPred (f + 1) skip bn (r + 1) =
      SnapCall.ok ((docs.drop skip).take (min (bsPred + 1) (r + 1))) bn
          ((r + 1) - min (bsPred + 1) (r + 1)) ::
        snapshotLoopF docs bsPred f (skip + min (bsPred + 1) (r + 1)) (bn + 1)
          ((r + 1) - min (bsPred + 1) (r + 1)) := by
  have hl : ((docs.drop skip).take (min (bsPred + 1) (r + 1))).length =
      min (bsPred + 1) (r + 1) := by
    rw [List.length_take, List.length_drop]
    omega
  simp only [snapshotLoopF]
  rw [hl, if_neg (Nat.lt_irrefl _)]

/-- Every callback invocation the loop emits is a page invocation (the error
invocation only arises before the loop starts). -/
theorem snapshotLoopF_mem_ok (docs : List Doc) (bsPred : Nat) :
    ∀ (fuel skip bn r : Nat) (c : SnapCall),
      c ∈ snapshotLoopF docs bsPred fuel skip bn r → ∃ b n rr, c = .ok b n rr := by
  intro fuel
  induction fuel with
  | zero =>
    intro skip bn r c hc
    rw [snapshotLoopF] at hc
    exact absurd hc (List.not_mem_nil c)
  | succ f ihf =>
    intro skip bn r c hc
    cases r with
    | zero =>
      rw [snapshotLoopF_zero] at hc
      exact absurd hc (List.not_mem_nil c)
    | succ r' =>
      simp only [snapshotLoopF] at hc
      split at hc
      · rw [List.mem_singleton] at hc
        exact ⟨_, _, _, hc⟩
      · rw [List.mem_cons] at hc
        cases hc with
        | inl h => exact ⟨_, _, _, h⟩
        | inr h => exact ihf _ _ _ c h

/-- Each page invocation of the loop, by position: the batch numbers are
consecutive from `bn`, each invocation's `remaining` argument is the entry
remaining count minus the documents delivered through that invocation, and
every page is non-empty. -/
theorem snapshotLoopF_get (docs : List Doc) (bsPred : Nat) :
    ∀ (fuel skip bn r i : Nat) (c : SnapCall),
      r ≤ fuel → skip + r ≤ docs.length →
      (snapshotLoopF docs bsPred fuel skip bn r)[i]? = some c →
      c.num = bn + i ∧
      c.rem = r - sumPages ((snapshotLoopF docs bsPred fuel skip bn r).take (i + 1)) ∧
      ∃ b, c = .ok b (bn + i) c.rem ∧ b ≠ [] := by
  intro fuel
  induction fuel with
  | zero =>
    intro skip bn r i c hr hlen hc
    rw [snapshotLoopF] at hc
    simp at hc
  | succ f ihf =>
    intro skip bn r i c hr hlen hc
    cases r with
    | zero =>
      rw [snapshotLoopF_zero] at hc
      simp at hc
    | succ r' =>
      rw [snapshotLoopF_succ docs bsPred f skip bn r' hlen] at hc ⊢
      have hcbs1 : 1 ≤ min (bsPred + 1) (r' + 1) := by omega
      have hcbsr : min (bsPred + 1) (r' + 1) ≤ r' + 1 := Nat.min_le_right _ _
      have hl : ((docs.drop skip).take (min (bsPred + 1) (r' + 1))).length =
          min (bsPred + 1) (r' + 1) := by
        rw [List.length_take, List.length_drop]
        omega
      cases i with
      | zero =>
        rw [List.getElem?_cons_zero] at hc
        obtain rfl := Option.some_injective _ hc
        refine ⟨rfl, ?_, ?_⟩
        · simp [sumPages, SnapCall.page, SnapCall.rem, hl]
        · refine ⟨(docs.drop skip).take (min (bsPred + 1) (r' + 1)), ?_, ?_⟩
          · simp [SnapCall.rem]
          · intro hnil
            rw [hnil] at hl
            simp at hl
            omega
      | succ i' =>
        rw [List.getElem?_cons_succ] at hc
        have hr2 : (r' + 1) - min (bsPred + 1) (r' + 1) ≤ f := by omega
        have hlen2 : (skip + min (bsPred + 1) (r' + 1)) +
            ((r' + 1) - min (bsPred + 1) (r' + 1)) ≤ docs.length := by omega
        obtain ⟨hnum, hrem, b, hb, hbne⟩ := ihf _ _ _ i' c hr2 hlen2 hc
        have haddc : bn + 1 + i' = bn + (i' + 1) := by omega
        refine ⟨by rw [hnum, haddc], ?_, ?_⟩
        · rw [List.take_succ_cons, sumPages_cons, hrem]
          simp only [SnapCall.page]
          rw [hl]
          omega
        · refine ⟨b, ?_, hbne⟩
          rw [hb, haddc]
          rfl

/-- With every enqueue succeeding, processing the loop's invocations sends one
batch message per page followed by the terminating `snapshot_end` (which the
callback sends inside the invocation whose `remaining` argument is zero —
always the last one when at least one document is to be delivered). -/
theorem snapshotLoopF_process (docs : List Doc) (bsPred : Nat) :
    ∀ (fuel skip bn r i₀ : Nat),
      1 ≤ r → r ≤ fuel → skip + r ≤ docs.length →
      processCalls (fun _ => true) (snapshotLoopF docs bsPred fuel skip bn r) i₀ =
        (snapshotLoopF docs bsPred fuel skip bn r).map
            (fun c => batchMsg c.page c.num c.rem) ++ [snapshotEndMsg] := by
  intro fuel
  induction fuel with
  | zero =>
    intro skip bn r i₀ h1 hr _
    omega
  | succ f ihf =>
    intro skip bn r i₀ h1 hr hlen
    cases r with
    | zero => omega
    | succ r' =>
      rw [snapshotLoopF_succ docs bsPred f skip bn r' hlen]
      have hcbs1 : 1 ≤ min (bsPred + 1) (r' + 1) := by omega
      have hcbsr : min (bsPred + 1) (r' + 1) ≤ r' + 1 := Nat.min_le_right _ _
      have hl : ((docs.drop skip).take (min (bsPred + 1) (r' + 1))).length =
          min (bsPred + 1) (r' + 1) := by
        rw [List.length_take, List.length_drop]
        omega
      have hne : ((docs.drop skip).take (min (bsPred + 1) (r' + 1))).isEmpty = false := by
        rw [List.isEmpty_eq_false_iff_exists_mem]
        have : 0 < ((docs.drop skip).take (min (bsPred + 1) (r' + 1))).length := by omega
        obtain ⟨x, hx⟩ := List.exists_mem_of_length_pos this
        exact ⟨x, hx⟩
      by_cases hrem : (r' + 1) - min (bsPred + 1) (r' + 1) = 0
      · rw [hrem, snapshotLoopF_zero]
        simp only [processCalls, processCall, hne, Bool.false_eq_true, if_false,
          if_true, if_pos rfl]
        rfl
      · have hr2 : (r' + 1) - min (bsPred + 1) (r' + 1) ≤ f := by omega
        have hlen2 : (skip + min (bsPred + 1) (r' + 1)) +
            ((r' + 1) - min (bsPred + 1) (r' + 1)) ≤ docs.length := by omega
        have hrec := ihf (skip + min (bsPred + 1) (r' + 1)) (bn + 1)
          ((r' + 1) - min (bsPred + 1) (r' + 1)) (i₀ + 1) (by omega) hr2 hlen2
        simp only [processCalls, processCall, hne, Bool.false_eq_true, if_false,
          if_true, if_neg hrem]
        rw [hrec]
        rfl

theorem effBatchSize_pos (o : SnapshotOptions) : 1 ≤ effBatchSize o := by
  unfold effBatchSize
  split
  · omega
  · omega

theorem effLimit_pos (o : SnapshotOptions) : 1 ≤ effLimit o := by
  unfold effLimit
  split
  · omega
  · omega

theorem StreamSnapshot_eq_loop (docs : List Doc) (o : SnapshotOptions) :
    StreamSnapshot docs none (some o) =
      snapshotLoopF docs (effBatchSize o - 1) (min docs.length (effLimit o)) 0 1
        (min docs.length (effLimit o)) := rfl

/-- Zero matching documents: `StreamSnapshot` never invokes the callback
(database.go:280: the loop guard `remaining > 0` fails immediately), so the
session consists of the lone `snapshot_start`. -/
theorem session_empty (o : SnapshotOptions) :
    handleSnapshotSession [] none (some o) (fun _ => true) = [snapshotStartMsg] := by
  simp only [handleSnapshotSession, if_true]
  rw [StreamSnapshot_eq_loop]
  simp [snapshotLoopF_zero, processCalls]

/-- At least one matching document and no enqueue failure: the session is
`snapshot_start`, one batch message per page invocation, `snapshot_end`. -/
theorem session_nonempty (docs : List Doc) (o : SnapshotOptions) (h : docs ≠ []) :
    handleSnapshotSession docs none (some o) (fun _ => true) =
      snapshotStartMsg ::
        ((StreamSnapshot docs none (some o)).map (fun c => batchMsg c.page c.num c.rem) ++
          [snapshotEndMsg]) := by
  have hT : 1 ≤ min docs.length (effLimit o) := by
    have h1 := effLimit_pos o
    have h2 : 0 < docs.length := List.length_pos.mpr h
    omega
  simp only [handleSnapshotSession, if_true]
  congr 1
  rw [StreamSnapshot_eq_loop]
  exact snapshotLoopF_process docs (effBatchSize o - 1) _ 0 1 _ 1 hT (Nat.le_refl _)
    (by omega)

theorem processCall_requestId (ok : Nat → Bool) (i : Nat) (c : SnapCall) :
    ∀ m ∈ (processCall ok i c).1, m.requestId = "" := by
  intro m hm
  cases c with
  | err bn r e =>
    simp only [processCall] at hm
    split at hm
    · rw [List.mem_singleton] at hm
      rw [hm]
      rfl
    · exact absurd hm (List.not_mem_nil m)
  | ok b bn r =>
    simp only [processCall] at hm
    split at hm
    · split at hm
      · split at hm
        · rw [List.mem_singleton] at hm
          rw [hm]
          rfl
        · exact absurd hm (List.not_mem_nil m)
      · exact absurd hm (List.not_mem_nil m)
    · split at hm
      · split at hm
        · rw [List.mem_cons] at hm
          cases hm with
          | inl hm => rw [hm]; rfl
          | inr hm =>
            split at hm
            · rw [List.mem_singleton] at hm
              rw [hm]
              rfl
            · exact absurd hm (List.not_mem_nil m)
        · rw [List.mem_singleton] at hm
          rw [hm]
          rfl
      · exact absurd hm (List.not_mem_nil m)

theorem processCalls_mem (ok : Nat → Bool) :
    ∀ (cs : List SnapCall) (i₀ : Nat) (m : ServerMessage),
      m ∈ processCalls ok cs i₀ → ∃ c ∈ cs, ∃ i, m ∈ (processCall ok i c).1 := by
  intro cs
  induction cs with
  | nil =>
    intro i₀ m hm
    exact absurd hm (List.not_mem_nil m)
  | cons c rest ih =>
    intro i₀ m hm
    simp only [processCalls] at hm
    rw [List.mem_append] at hm
    cases hm with
    | inl hm => exact ⟨c, List.mem_cons_self _ _, i₀, hm⟩
    | inr hm =>
      obtain ⟨c2, hc2, i, hi⟩ := ih _ m hm
      exact ⟨c2, List.mem_cons_of_mem c hc2, i, hi⟩

/-- Every message a snapshot session enqueues carries an empty `RequestID`:
none of the messages built at websocket.go:536-538, 551-554, 566-571 and
592-594 sets that field. -/
theorem session_requestId (docs : List Doc) (countErr : Option String)
    (so : Option SnapshotOptions) (ok : Nat → Bool) :
    ∀ m ∈ handleSnapshotSession docs countErr so ok, m.requestId = "" := by
  intro m hm
  unfold handleSnapshotSession at hm
  split at hm
  · rw [List.mem_cons] at hm
    cases hm with
    | inl hm => rw [hm]; rfl
    | inr hm =>
      obtain ⟨c, -, i, hi⟩ := processCalls_mem ok _ 1 m hm
      exact processCall_requestId ok i c m hi
  · exact absurd hm (List.not_mem_nil m)

theorem processCall_ok_types (ok : Nat → Bool) (i : Nat) (b : List Doc) (bn r : Nat) :
    ∀ m ∈ (processCall ok i (.ok b bn r)).1,
      m.type = "snapshot" ∨ m.type = "snapshot_end" := by
  intro m hm
  simp only [processCall] at hm
  split at hm
  · split at hm
    · split at hm
      · rw [List.mem_singleton] at hm
        rw [hm]
        exact Or.inr rfl
      · exact absurd hm (List.not_mem_nil m)
    · exact absurd hm (List.not_mem_nil m)
  · split at hm
    · split at hm
      · rw [List.mem_cons] at hm
        cases hm with
        | inl hm => rw [hm]; exact Or.inl rfl
        | inr hm =>
          split at hm
          · rw [List.mem_singleton] at hm
            rw [hm]
            exact Or.inr rfl
          · exact absurd hm (List.not_mem_nil m)
      · rw [List.mem_singleton] at hm
        rw [hm]
        exact Or.inl rfl
    · exact absurd hm (List.not_mem_nil m)

/-- Without a store error, a snapshot session emits no `error` message at
all — in particular not on an enqueue failure, which is merely logged
(websocket.go:575-577). -/
theorem session_no_error (docs : List Doc) (o : SnapshotOptions) (ok : Nat → Bool) :
    ∀ m ∈ handleSnapshotSession docs none (some o) ok, m.type ≠ "error" := by
  intro m hm
  unfold handleSnapshotSession at hm
  split at hm
  · rw [List.mem_cons] at hm
    cases hm with
    | inl hm => rw [hm]; intro hh; exact absurd hh (by simp [snapshotStartMsg])
    | inr hm =>
      obtain ⟨c, hc, i, hi⟩ := processCalls_mem ok _ 1 m hm
      rw [StreamSnapshot_eq_loop] at hc
      obtain ⟨b, n, rr, rfl⟩ := snapshotLoopF_mem_ok docs _ _ _ _ _ c hc
      rcases processCall_ok_types ok i b n rr m hi with ht | ht <;>
        rw [ht] <;> intro hh <;> exact absurd hh (by simp)
  · exact absurd hm (List.not_mem_nil m)

/-! ## Concrete fixtures for witnesses and counterexamples -/

def cfgA : List DatabaseConfig := [{ name := "A", collections := ["x"] }]

def doc1 : Doc := [("_id", "1")]

def doc2 : Doc := [("_id", "2")]

def doc3 : Doc := [("_id", "3")]

def doc4 : Doc := [("_id", "4")]

def docs3 : List Doc := [doc1, doc2, doc3]

def docs4 : List Doc := [doc1, doc2, doc3, doc4]

def opts32 : SnapshotOptions := { includeSnapshot := true, batchSize := 2 }

def optsLimit0 : SnapshotOptions := { includeSnapshot := true, snapshotLimit := 0 }

def msgAx : ClientMessage :=
  { type := "subscribe", database := "A", collection := "x", requestId := "r1" }

def msgBy : ClientMessage :=
  { type := "subscribe", database := "B", collection := "y", requestId := "r2" }

def msgSnapAx : ClientMessage :=
  { type := "subscribe", database := "A", collection := "x", requestId := "r1",
    snapshotOptions := some { includeSnapshot := true } }

def subAx : Subscription :=
  { id := "s1", clientId := "c1", database := "A", collection := "x" }

def evAx1 : ChangeEvent :=
  { id := "e1", operationType := "insert", database := "A", collection := "x" }

def evAx2 : ChangeEvent :=
  { id := "e2", operationType := "update", database := "A", collection := "x" }

/-- Oracle failing exactly the second enqueue attempt of a snapshot session
(attempt 0 is `snapshot_start`, attempt 1 the first batch). -/
def okSkip1 : Nat → Bool := fun k => k != 1

def cFull : HClient :=
  { id := "c1", subs := [subAx], history := [BroadcastChange evAx1], qlen := 1, capacity := 1 }

def hubFull : HubState := { clients := [cFull], departed := [] }

def c0 : HClient := { id := "c1", subs := [subAx], history := [], qlen := 0, capacity := 2 }

def trW : List Step := [.broadcast evAx1, .drain "c1" 1, .broadcast evAx2]

/-! ## Claims -/

/-- C1: for every connected client and every `(database, collection)` pair,
the sequence of `change` messages delivered to that client's outbound queue
for that pair is an initial segment (hence a prefix-preserving subsequence —
no reordering, no duplication) of the sequence of change events the ingestor
delivered into the broadcast channel for that collection; events are omitted
only by the overflow policy (eviction of the client), which truncates the
tail. -/
theorem c1_per_client_order (c₀ : HClient) (tr : List Step) (db coll : String)
    (hh : c₀.history = []) (hfr : freshFor c₀.id tr) :
    ListIsFront
      (changeMsgsFor db coll (historyOf (runTrace ⟨[c₀], []⟩ tr) c₀.id))
      ((producedFor db coll tr).map BroadcastChange) := by
  have hA : Active c₀.id (⟨[c₀], []⟩ : HubState) c₀ := by
    refine ⟨?_, rfl⟩
    simp [List.filter_cons]
  obtain ⟨k, hk⟩ := run_front tr _ c₀ hA hfr
  rw [hk, hh]
  show ListIsFront (changeMsgsFor db coll [] ++ _) _
  rw [show changeMsgsFor db coll [] = [] from rfl, List.nil_append]
  exact listIsFront_take k _

theorem c1_per_client_order_witness :
    ListIsFront
      (changeMsgsFor "A" "x" (historyOf (runTrace ⟨[c0], []⟩ trW) c0.id))
      ((producedFor "A" "x" trW).map BroadcastChange) :=
  c1_per_client_order c0 trW "A" "x" rfl
    (by intro c' hm; simp [trW] at hm)

/-- C2: when the hub's broadcast handler finds a subscribed client's outbound
queue full, it removes the client from the `clients` set and closes its
`send` channel in that very step, and — absent a re-registration of the same
id — the client stays removed and its queue history never grows again: no
further change message is attempted on it. -/
theorem c2_overflow_evicts (s : HubState) (c : HClient) (ev : ChangeEvent)
    (rest : List Step)
    (hA : Active c.id s c)
    (hsub : isClientSubscribed c (BroadcastChange ev) = true)
    (hfull : c.capacity ≤ c.qlen)
    (hfr : freshFor c.id rest) :
    Gone c.id (sysStep s (.broadcast ev)) c ∧
    (∀ x ∈ (sysStep s (.broadcast ev)).clients, x.id ≠ c.id) ∧
    Gone c.id (runTrace (sysStep s (.broadcast ev)) rest) c ∧
    historyOf (runTrace (sysStep s (.broadcast ev)) rest) c.id = c.history := by
  have hk : (deliver (BroadcastChange ev) c).2 = false := by
    rw [deliver_overflow hsub (by omega)]
  have hG := step_broadcast_evict hA hk
  have hG2 := gone_run rest _ hG hfr
  refine ⟨hG, ?_, hG2, gone_history hG2⟩
  intro x hx hxid
  have hmem : x ∈ (sysStep s (.broadcast ev)).clients.filter (fun y => y.id == c.id) :=
    List.mem_filter.mpr ⟨hx, by simp [hxid]⟩
  rw [hG.1] at hmem
  exact absurd hmem (List.not_mem_nil x)

theorem c2_overflow_evicts_witness :
    isClientSubscribed cFull (BroadcastChange evAx2) = true ∧
    cFull.capacity ≤ cFull.qlen ∧
    historyOf (runTrace (sysStep hubFull (.broadcast evAx2)) [.broadcast evAx1]) cFull.id =
      cFull.history :=
  ⟨by decide, by decide,
    (c2_overflow_evicts hubFull cFull evAx2 [.broadcast evAx1]
      ⟨by decide, rfl⟩ (by decide) (by decide)
      (by intro c' hm; simp at hm)).2.2.2⟩

/-- C10: the hub's broadcast path carries only messages wrapping a change
event (`BroadcastChange` is the sole producer into the broadcast channel),
and a broadcast step grows a client's queue only by that change message and
only when the client holds a subscription matching the event's database
(with the empty collection as wildcard). -/
theorem c10_broadcast_only_changes (c : HClient) (ev : ChangeEvent) :
    (BroadcastChange ev).change = some ev ∧
    (BroadcastChange ev).type = "change" ∧
    ((deliver (BroadcastChange ev) c).1.history = c.history ∨
      ((deliver (BroadcastChange ev) c).1.history = c.history ++ [BroadcastChange ev] ∧
        ∃ sub ∈ c.subs, sub.database = ev.database ∧
          (sub.collection = "" ∨ sub.collection = ev.collection))) := by
  refine ⟨rfl, rfl, ?_⟩
  by_cases hsub : isClientSubscribed c (BroadcastChange ev) = true
  · by_cases hq : c.qlen < c.capacity
    · refine Or.inr ⟨by rw [deliver_enqueue hsub hq], ?_⟩
      unfold isClientSubscribed BroadcastChange at hsub
      simp only at hsub
      split at hsub
      · exact absurd hsub (by simp)
      · rw [List.any_eq_true] at hsub
        obtain ⟨sub, hmem, hp⟩ := hsub
        rw [Bool.and_eq_true, Bool.or_eq_true] at hp
        refine ⟨sub, hmem, by simpa using hp.1, ?_⟩
        rcases hp.2 with h | h
        · exact Or.inl (by simpa using h)
        · exact Or.inr (by simpa using h)
    · exact Or.inl (by rw [deliver_overflow hsub hq])
  · exact Or.inl (by rw [deliver_not_subscribed (by simpa using hsub)])

/-- C3: when a validator is configured, every successful subscribe ack
implies the pair passed `IsValidSubscription`, and every subscription in the
updated map either pre-existed or is for a whitelisted pair — no subscription
is ever created outside the whitelist. -/
theorem c3_whitelist_enforced (cfgs : List DatabaseConfig) (clientId freshId : String)
    (subs : List (String × Subscription)) (msg : ClientMessage) (okResp : Bool) :
    (∀ m ∈ (handleSubscribe (some cfgs) clientId freshId subs msg okResp).2.1,
      m.type = "subscribe" → m.success = true →
        IsValidSubscription cfgs msg.database msg.collection = true) ∧
    (∀ p ∈ (handleSubscribe (some cfgs) clientId freshId subs msg okResp).1,
      p ∈ subs ∨ IsValidSubscription cfgs p.2.database p.2.collection = true) := by
  by_cases hv : IsValidSubscription cfgs msg.database msg.collection = true
  · constructor
    · intro m _ _ _
      exact hv
    · intro p hp
      simp only [handleSubscribe, hv, Bool.not_true, Bool.false_eq_true, if_false] at hp
      rw [List.mem_append] at hp
      cases hp with
      | inl hp => exact Or.inl hp
      | inr hp =>
        rw [List.mem_singleton] at hp
        rw [hp]
        exact Or.inr hv
  · have hv2 : IsValidSubscription cfgs msg.database msg.collection = false := by
      simpa using hv
    constructor
    · intro m hm ht _
      exfalso
      simp only [handleSubscribe, hv2, Bool.not_false, if_true] at hm
      split at hm
      · rw [List.mem_singleton] at hm
        rw [hm] at ht
        exact absurd ht (by simp [invalidSubMsg])
      · exact absurd hm (List.not_mem_nil m)
    · intro p hp
      simp only [handleSubscribe, hv2, Bool.not_false, if_true] at hp
      exact Or.inl hp

theorem c3_whitelist_enforced_witness :
    IsValidSubscription cfgA msgAx.database msgAx.collection = true :=
  (c3_whitelist_enforced cfgA "c1" "s1" [] msgAx true).1
    (subscribeAckMsg msgAx "s1") (by decide) rfl rfl

/-- The error text of the subscribe rejection contains the words
`Invalid subscription` (they are its initial segment). -/
theorem invalidSubMsg_error_contains (msg : ClientMessage) :
    ListContains ("Invalid subscription".data) ((invalidSubMsg msg).error).data := by
  refine ⟨[], (": database \x27".data ++ msg.database.data ++ "\x27 collection \x27".data ++
    msg.collection.data ++ "\x27 is not configured on the server".data), ?_⟩
  rw [List.nil_append]
  have hd : ("Invalid subscription: database \x27").data =
      "Invalid subscription".data ++ ": database \x27".data := by decide
  show "Invalid subscription".data ++ _ =
    ("Invalid subscription: database \x27" ++ msg.database ++ "\x27 collection \x27" ++
      msg.collection ++ "\x27 is not configured on the server").data
  simp [String.data_append, hd, List.append_assoc]

/-- C7: a subscribe request for a pair the validator rejects creates no
subscription, spawns no snapshot, and (queue space permitting) sends exactly
one reply: type `error`, `errorCode` 1, echoing the request's `requestId`,
with human text containing `Invalid subscription`. -/
theorem c7_invalid_subscribe_reply (cfgs : List DatabaseConfig) (clientId freshId : String)
    (subs : List (String × Subscription)) (msg : ClientMessage)
    (hinv : IsValidSubscription cfgs msg.database msg.collection = false) :
    (handleSubscribe (some cfgs) clientId freshId subs msg true).1 = subs ∧
    (handleSubscribe (some cfgs) clientId freshId subs msg true).2.2 = none ∧
    (handleSubscribe (some cfgs) clientId freshId subs msg true).2.1 = [invalidSubMsg msg] ∧
    (invalidSubMsg msg).type = "error" ∧
    (invalidSubMsg msg).errorCode = 1 ∧
    (invalidSubMsg msg).requestId = msg.requestId ∧
    ListContains ("Invalid subscription".data) ((invalidSubMsg msg).error).data := by
  refine ⟨?_, ?_, ?_, rfl, rfl, rfl, invalidSubMsg_error_contains msg⟩ <;>
    simp [handleSubscribe, hinv]

theorem c7_invalid_subscribe_reply_witness :
    IsValidSubscription cfgA msgBy.database msgBy.collection = false ∧
    (handleSubscribe (some cfgA) "c1" "s1" [] msgBy true).1 = [] ∧
    (handleSubscribe (some cfgA) "c1" "s1" [] msgBy true).2.1 = [invalidSubMsg msgBy] ∧
    (invalidSubMsg msgBy).requestId = "r2" :=
  ⟨by decide,
    (c7_invalid_subscribe_reply cfgA "c1" "s1" [] msgBy (by decide)).1,
    (c7_invalid_subscribe_reply cfgA "c1" "s1" [] msgBy (by decide)).2.2.1,
    rfl⟩

/-- C4: the code violates the claim at its stated boundary case.  For a
snapshot over a collection with zero matching documents, `StreamSnapshot`
never invokes the callback (the loop guard `remaining > 0` fails at once,
database.go:280), so the client receives `snapshot_start` and then nothing:
no `snapshot_end` is ever emitted, where the claim requires
`snapshot_start` followed by `snapshot_end`. -/
theorem c4_empty_snapshot_no_end :
    handleSnapshotSession [] none (some { includeSnapshot := true }) (fun _ => true) =
      [snapshotStartMsg] ∧
    (handleSnapshotSession [] none (some { includeSnapshot := true }) (fun _ => true)).filter
        (fun m => m.type == "snapshot_end") = [] ∧
    snapshotEndMsg.type = "snapshot_end" := by
  refine ⟨session_empty _, ?_, rfl⟩
  rw [session_empty]
  rfl

/-- C5: batches are emitted in order with consecutive 1-based batch numbers,
each carrying `snapshot_remaining = T − delivered_so_far` (with
`T = min count limit` and `delivered_so_far` counted through the current
batch), every batch non-empty; concretely, 3 documents with batch size 2
yield a 2-document batch 1 with remaining 1, a 1-document batch 2 with
remaining 0, then `snapshot_end`. -/
theorem c5_batch_numbering :
    (∀ (docs : List Doc) (o : SnapshotOptions) (i : Nat) (c : SnapCall),
      (StreamSnapshot docs none (some o))[i]? = some c →
      c.num = i + 1 ∧
      c.rem = min docs.length (effLimit o) -
        sumPages ((StreamSnapshot docs none (some o)).take (i + 1)) ∧
      ∃ b, c = SnapCall.ok b (i + 1) c.rem ∧ b ≠ []) ∧
    handleSnapshotSession docs3 none (some opts32) (fun _ => true) =
      [snapshotStartMsg, batchMsg [doc1, doc2] 1 1, batchMsg [doc3] 2 0, snapshotEndMsg] := by
  constructor
  · intro docs o i c hc
    rw [StreamSnapshot_eq_loop] at hc
    obtain ⟨hnum, hrem, b, hb, hbne⟩ :=
      snapshotLoopF_get docs (effBatchSize o - 1) (min docs.length (effLimit o)) 0 1
        (min docs.length (effLimit o)) i c (Nat.le_refl _) (by omega) hc
    have hcomm : 1 + i = i + 1 := Nat.add_comm 1 i
    refine ⟨by rw [hnum, hcomm], ?_, ⟨b, by rw [hb, hcomm]; rfl, hbne⟩⟩
    rw [StreamSnapshot_eq_loop, hrem]
  · decide

theorem c5_batch_numbering_witness :
    (StreamSnapshot docs3 none (some opts32))[0]? = some (SnapCall.ok [doc1, doc2] 1 1) ∧
    ((SnapCall.ok [doc1, doc2] 1 1).num = 0 + 1 ∧
     (SnapCall.ok [doc1, doc2] 1 1).rem = min docs3.length (effLimit opts32) -
        sumPages ((StreamSnapshot docs3 none (some opts32)).take (0 + 1)) ∧
     ∃ b, SnapCall.ok [doc1, doc2] 1 1 =
        SnapCall.ok b (0 + 1) ((SnapCall.ok [doc1, doc2] 1 1 : SnapCall).rem) ∧ b ≠ []) :=
  ⟨by decide,
    c5_batch_numbering.1 docs3 opts32 0 (SnapCall.ok [doc1, doc2] 1 1) (by decide)⟩

/-- C6 counterexample: a subscribe with `include_snapshot = true` and
`snapshot_limit = 0` over a one-document collection emits a `snapshot`
batch — the defaulting at database.go:237-240 turns `limit = 0` into 10000,
so the session is not "no snapshot". -/
theorem c6_limit0_cex :
    handleSnapshotSession [doc1] none (some optsLimit0) (fun _ => true) =
      [snapshotStartMsg, batchMsg [doc1] 1 0, snapshotEndMsg] ∧
    (batchMsg [doc1] 1 0).type = "snapshot" ∧
    (batchMsg [doc1] 1 0).snapshotData = [doc1] := by
  refine ⟨?_, rfl, rfl⟩
  decide

/-- C6 (amended): `snapshot_limit = 0` is treated as the default limit 10000
(database.go:237-240), so the session is identical to one requested with
`snapshot_limit = 10000` and, over a non-empty collection, does emit
`snapshot` batches. -/
theorem c6_limit0_default (docs : List Doc) (o : SnapshotOptions)
    (h : o.snapshotLimit = 0) :
    StreamSnapshot docs none (some o) =
      StreamSnapshot docs none (some { o with snapshotLimit := 10000 }) ∧
    (docs ≠ [] →
      (handleSnapshotSession docs none (some o) (fun _ => true)).any
        (fun m => m.type == "snapshot") = true) := by
  have he : effLimit o = effLimit { o with snapshotLimit := 10000 } := by
    unfold effLimit
    rw [h]
    show (if (0 : Int) ≤ 0 then 10000 else Int.toNat 0) =
      (if (10000 : Int) ≤ 0 then 10000 else Int.toNat 10000)
    decide
  have hb : effBatchSize o = effBatchSize { o with snapshotLimit := 10000 } := rfl
  constructor
  · rw [StreamSnapshot_eq_loop, StreamSnapshot_eq_loop, he, hb]
  · intro hne
    rw [session_nonempty docs o hne]
    have hT : 1 ≤ min docs.length (effLimit o) := by
      have h1 := effLimit_pos o
      have h2 : 0 < docs.length := List.length_pos.mpr hne
      omega
    obtain ⟨r', hr'⟩ := Nat.exists_eq_succ_of_ne_zero (by omega :
      min docs.length (effLimit o) ≠ 0)
    rw [StreamSnapshot_eq_loop, hr',
      snapshotLoopF_succ docs (effBatchSize o - 1) r' 0 1 r' (by omega)]
    simp [batchMsg]

theorem c6_limit0_default_witness :
    optsLimit0.snapshotLimit = 0 ∧
    ([doc1] ≠ ([] : List Doc)) ∧
    (handleSnapshotSession [doc1] none (some optsLimit0) (fun _ => true)).any
      (fun m => m.type == "snapshot") = true :=
  ⟨rfl, by decide, (c6_limit0_default [doc1] optsLimit0 rfl).2 (by decide)⟩

/-- C8 counterexample: a subscribe with `requestId = "r1"` whose snapshot
session hits a store error yields the ack (echoing `r1`), `snapshot_start`,
and then an `error` message whose `requestId` is empty, not `"r1"`: the
error callback at websocket.go:551-554 builds the message without a
`RequestID`. -/
theorem c8_snapshot_error_cex :
    (handleSubscribeFull (some cfgA) "c1" "s1" [] msgSnapAx true [] (some "connection lost")
        (fun _ => true)).2 =
      [subscribeAckMsg msgSnapAx "s1", snapshotStartMsg,
        snapErrMsg "failed to count documents: connection lost"] ∧
    (snapErrMsg "failed to count documents: connection lost").type = "error" ∧
    (snapErrMsg "failed to count documents: connection lost").requestId = "" ∧
    msgSnapAx.requestId = "r1" ∧
    ("" : String) ≠ "r1" := by
  refine ⟨?_, rfl, rfl, rfl, by decide⟩
  decide

/-- C8 (amended): every direct reply — subscribe ack or rejection,
unsubscribe ack, pong, health — echoes the request's `requestId`; the
messages of a snapshot session (including its `error` messages) carry an
empty `requestId` instead. -/
theorem c8_request_id_echo :
    (∀ msg, (handlePing msg).requestId = msg.requestId) ∧
    (∀ msg now, (handleHealthWS msg now).requestId = msg.requestId) ∧
    (∀ subs msg, ((handleUnsubscribe subs msg).2).requestId = msg.requestId) ∧
    (∀ validator clientId freshId subs msg okResp,
      ∀ m ∈ (handleSubscribe validator clientId freshId subs msg okResp).2.1,
        m.requestId = msg.requestId) ∧
    (∀ docs countErr so ok, ∀ m ∈ handleSnapshotSession docs countErr so ok,
      m.requestId = "") := by
  refine ⟨fun msg => rfl, fun msg now => rfl, ?_, ?_, session_requestId⟩
  · intro subs msg
    unfold handleUnsubscribe
    split
    · split
      · rfl
      · rfl
    · rfl
  · intro validator clientId freshId subs msg okResp m hm
    unfold handleSubscribe at hm
    cases okResp with
    | false =>
      cases validator with
      | none => simp at hm
      | some cfgs =>
        by_cases hv : IsValidSubscription cfgs msg.database msg.collection = true
        · simp [hv] at hm
        · have hv2 : IsValidSubscription cfgs msg.database msg.collection = false := by
            simpa using hv
          simp [hv2] at hm
    | true =>
      cases validator with
      | none =>
        simp at hm
        rw [hm]
        rfl
      | some cfgs =>
        by_cases hv : IsValidSubscription cfgs msg.database msg.collection = true
        · simp [hv] at hm
          rw [hm]
          rfl
        · have hv2 : IsValidSubscription cfgs msg.database msg.collection = false := by
            simpa using hv
          simp [hv2] at hm
          rw [hm]
          rfl

theorem c8_request_id_echo_witness :
    (subscribeAckMsg msgAx "s1").requestId = msgAx.requestId :=
  c8_request_id_echo.2.2.2.1 (some cfgA) "c1" "s1" [] msgAx true
    (subscribeAckMsg msgAx "s1") (by decide)

/-- C9 counterexample: batch size 2 over four documents with the first batch
enqueue failing (`okSkip1`).  The claim predicts an `error` message and
termination; the code instead logs, returns from that callback invocation
only, and the streamer fetches and delivers batch 2 — the session enqueues
no `error` message at all. -/
theorem c9_continue_cex :
    handleSnapshotSession docs4 none (some opts32) okSkip1 =
      [snapshotStartMsg, batchMsg [doc3, doc4] 2 0, snapshotEndMsg] ∧
    (handleSnapshotSession docs4 none (some opts32) okSkip1).filter
      (fun m => m.type == "error") = [] := by
  constructor
  · decide
  · decide

/-- C9 (amended): a failed enqueue of `snapshot_start` aborts the session
before any streaming (websocket.go:540-545); a failed enqueue of a batch
message makes only that callback invocation return early — processing
continues with the next invocation (websocket.go:573-578) — and no enqueue
failure ever emits an `error` message (absent a store error the session
contains none). -/
theorem c9_enqueue_failure_behavior :
    (∀ docs countErr so (ok : Nat → Bool), ok 0 = false →
      handleSnapshotSession docs countErr so ok = []) ∧
    (∀ (ok : Nat → Bool) (i bn rem : Nat) (b : List Doc) (rest : List SnapCall),
      b ≠ [] → ok i = false →
      processCalls ok (SnapCall.ok b bn rem :: rest) i = processCalls ok rest (i + 1)) ∧
    (∀ docs o (ok : Nat → Bool), ∀ m ∈ handleSnapshotSession docs none (some o) ok,
      m.type ≠ "error") := by
  refine ⟨?_, ?_, session_no_error⟩
  · intro docs countErr so ok h
    unfold handleSnapshotSession
    rw [if_neg (by simp [h])]
  · intro ok i bn rem b rest hb hfail
    cases b with
    | nil => exact absurd rfl hb
    | cons x xs =>
      simp [processCalls, processCall, hfail]

theorem c9_enqueue_failure_behavior_witness :
    ([doc1, doc2] ≠ ([] : List Doc)) ∧ okSkip1 1 = false ∧
    processCalls okSkip1 [SnapCall.ok [doc1, doc2] 1 2] 1 =
      processCalls okSkip1 [] 2 :=
  ⟨by decide, by decide,
    c9_enqueue_failure_behavior.2.1 okSkip1 1 1 2 [doc1, doc2] [] (by decide) (by decide)⟩

end Aktuell
